import Mathlib

/-!
Verification of the WokAPI session/identity layer.

This development shallowly embeds the session and identity core of the
WokAPI repository: the HMAC-signed JWT codec (`src/lib/jwt.ts`), the OAuth
state-nonce store and user upsert engine (`src/routes/auth.ts`), the
`requireAuth` middleware (`src/middleware.ts`) and the `GET /auth/me`
handler.  Strings are modelled as lists of characters, bytes as natural
numbers below 256, and the platform primitives (HMAC-SHA256, JSON
stringify/parse) as parameters of the model gathered in `JwtParams`.
-/

set_option maxHeartbeats 1000000
set_option maxRecDepth 8192

namespace WokAPI

/-! ## Bytes and UTF-8 (model of `TextEncoder`) -/

/-- UTF-8 encoding of a single character (what `TextEncoder` emits). -/
def utf8Char (c : Char) : List Nat :=
  let n := c.toNat
  if n < 128 then [n]
  else if n < 2048 then [192 + n / 64, 128 + n % 64]
  else if n < 65536 then [224 + n / 4096, 128 + n / 64 % 64, 128 + n % 64]
  else [240 + n / 262144, 128 + n / 4096 % 64, 128 + n / 64 % 64, 128 + n % 64]

/-- UTF-8 encoding of a character list. -/
def utf8Chars (cs : List Char) : List Nat := (cs.map utf8Char).flatten

/-- UTF-8 encoding of a `String`. -/
def utf8Str (s : String) : List Nat := utf8Chars s.data

/-! ## base64url codec

Model of the composition used by the source: `b64url` is `btoa` followed by
the `+/=` → `-_` replacements (so: base64url alphabet, no padding), and
`b64urlDecode` is the `-_` → `+/` replacement followed by `atob` (WHATWG
forgiving-base64), reading the resulting binary string as bytes. -/

/-- The character for a 6-bit group (base64url alphabet as produced by
`btoa` plus the `-`/`_` replacements). -/
def charOfSextet (n : Nat) : Char :=
  let m := n % 64
  if m < 26 then Char.ofNat (65 + m)
  else if m < 52 then Char.ofNat (97 + (m - 26))
  else if m < 62 then Char.ofNat (48 + (m - 52))
  else if m = 62 then '-'
  else '_'

/-- The 6-bit value of a character; accepts both the `+/` and `-_`
alphabets, as the source's decoder replaces `-_` by `+/` before `atob`. -/
def valOfChar (c : Char) : Option Nat :=
  let n := c.toNat
  if 65 ≤ n ∧ n ≤ 90 then some (n - 65)
  else if 97 ≤ n ∧ n ≤ 122 then some (n - 97 + 26)
  else if 48 ≤ n ∧ n ≤ 57 then some (n - 48 + 52)
  else if n = 45 ∨ n = 43 then some 62
  else if n = 95 ∨ n = 47 then some 63
  else none

/-- Bytes to 6-bit groups, 3 bytes at a time (the `btoa` bit regrouping). -/
def toSextets : List Nat → List Nat
  | [] => []
  | [a] => [a / 4, a % 4 * 16]
  | [a, b] => [a / 4, a % 4 * 16 + b / 16, b % 16 * 4]
  | a :: b :: c :: rest =>
    a / 4 :: (a % 4 * 16 + b / 16) :: (b % 16 * 4 + c / 64) :: c % 64 :: toSextets rest

/-- 6-bit groups back to bytes, 4 groups at a time; a leftover of exactly
one group is the forgiving-base64 length error. -/
def fromSextets : List Nat → Option (List Nat)
  | [] => some []
  | [_] => none
  | [s1, s2] => some [s1 * 4 + s2 / 16]
  | [s1, s2, s3] => some [s1 * 4 + s2 / 16, s2 % 16 * 16 + s3 / 4]
  | s1 :: s2 :: s3 :: s4 :: rest =>
    (fromSextets rest).map fun r =>
      (s1 * 4 + s2 / 16) :: (s2 % 16 * 16 + s3 / 4) :: (s3 % 4 * 64 + s4) :: r

/-- base64url-encode a byte list (source function `b64url`). -/
def b64url (bs : List Nat) : List Char := (toSextets bs).map charOfSextet

/-- ASCII whitespace stripped by forgiving-base64. -/
def isB64Space (c : Char) : Bool :=
  c == ' ' || c == '\t' || c == '\n' || c == '\x0c' || c == '\r'

/-- Drop one or two trailing `=` characters (forgiving-base64 step 2). -/
def dropTrailingEqs (cs : List Char) : List Char :=
  match cs.reverse with
  | c1 :: c2 :: rest =>
    if c1 = '=' then (if c2 = '=' then rest.reverse else (c2 :: rest).reverse) else cs
  | [c1] => if c1 = '=' then [] else cs
  | [] => cs

/-- Map characters to 6-bit values, failing on any invalid character. -/
def sextetsOfChars : List Char → Option (List Nat)
  | [] => some []
  | c :: rest =>
    match valOfChar c, sextetsOfChars rest with
    | some v, some vs => some (v :: vs)
    | _, _ => none

/-- base64url-decode (source function `b64urlDecode`, i.e. the `-_` → `+/`
replacement followed by the WHATWG forgiving-base64 `atob`); `none` models
the `InvalidCharacterError` thrown by `atob`. -/
def b64urlDecode (cs : List Char) : Option (List Nat) :=
  let cs1 := cs.filter fun c => !isB64Space c
  let cs2 := if cs1.length % 4 = 0 then dropTrailingEqs cs1 else cs1
  match sextetsOfChars cs2 with
  | none => none
  | some sx => fromSextets sx

/-! ### Round-trip of the base64url codec -/

lemma charOfSextet_mod (n : Nat) : charOfSextet n = charOfSextet (n % 64) := by
  have h : n % 64 % 64 = n % 64 := by omega
  simp only [charOfSextet, h]

lemma valOfChar_charOfSextet_lt : ∀ n, n < 64 → valOfChar (charOfSextet n) = some n := by
  decide

lemma valOfChar_charOfSextet (n : Nat) : valOfChar (charOfSextet n) = some (n % 64) := by
  rw [charOfSextet_mod]
  exact valOfChar_charOfSextet_lt (n % 64) (by omega)

lemma charOfSextet_tame_lt :
    ∀ n, n < 64 → (isB64Space (charOfSextet n) = false ∧
      charOfSextet n ≠ '=' ∧ charOfSextet n ≠ '.') := by
  decide

lemma charOfSextet_tame (n : Nat) :
    isB64Space (charOfSextet n) = false ∧ charOfSextet n ≠ '=' ∧ charOfSextet n ≠ '.' := by
  rw [charOfSextet_mod]
  exact charOfSextet_tame_lt (n % 64) (by omega)

lemma filter_b64url (bs : List Nat) :
    (b64url bs).filter (fun c => !isB64Space c) = b64url bs := by
  rw [List.filter_eq_self]
  intro c hc
  rcases List.mem_map.mp hc with ⟨n, _, rfl⟩
  simp [(charOfSextet_tame n).1]

lemma eq_not_mem_b64url (bs : List Nat) : '=' ∉ b64url bs := by
  intro h
  rcases List.mem_map.mp h with ⟨n, _, hn⟩
  exact (charOfSextet_tame n).2.1 hn

lemma dot_not_mem_b64url (bs : List Nat) : '.' ∉ b64url bs := by
  intro h
  rcases List.mem_map.mp h with ⟨n, _, hn⟩
  exact (charOfSextet_tame n).2.2 hn

lemma dropTrailingEqs_of_not_mem (cs : List Char) (h : '=' ∉ cs) :
    dropTrailingEqs cs = cs := by
  unfold dropTrailingEqs
  split
  · next c1 c2 rest heq =>
    have hc1 : c1 ≠ '=' := by
      intro e
      exact h (by rw [← List.mem_reverse, heq, e]; simp)
    rw [if_neg hc1]
  · next c1 heq =>
    have hc1 : c1 ≠ '=' := by
      intro e
      exact h (by rw [← List.mem_reverse, heq, e]; simp)
    rw [if_neg hc1]
  · rfl

lemma sextetsOfChars_map (sx : List Nat) :
    sextetsOfChars (sx.map charOfSextet) = some (sx.map (· % 64)) := by
  induction sx with
  | nil => rfl
  | cons s rest ih => simp [sextetsOfChars, valOfChar_charOfSextet, ih]

lemma toSextets_lt (bs : List Nat) (h : ∀ b ∈ bs, b < 256) :
    ∀ s ∈ toSextets bs, s < 64 := by
  induction bs using toSextets.induct with
  | case1 => simp [toSextets]
  | case2 a =>
    have := h a (by simp)
    simp only [toSextets]
    intro s hs
    simp only [List.mem_cons, List.not_mem_nil, or_false] at hs
    rcases hs with rfl | rfl <;> omega
  | case3 a b =>
    have ha := h a (by simp)
    have hb := h b (by simp)
    simp only [toSextets]
    intro s hs
    simp only [List.mem_cons, List.not_mem_nil, or_false] at hs
    rcases hs with rfl | rfl | rfl <;> omega
  | case4 a b c rest ih =>
    have ha := h a (by simp)
    have hb := h b (by simp)
    have hc := h c (by simp)
    have ih' := ih fun x hx => h x (by simp [hx])
    simp only [toSextets]
    intro s hs
    simp only [List.mem_cons] at hs
    rcases hs with rfl | rfl | rfl | rfl | hs
    · omega
    · omega
    · omega
    · omega
    · exact ih' s hs

lemma fromSextets_toSextets (bs : List Nat) (h : ∀ b ∈ bs, b < 256) :
    fromSextets (toSextets bs) = some bs := by
  induction bs using toSextets.induct with
  | case1 => rfl
  | case2 a =>
    simp only [toSextets, fromSextets, Option.some.injEq, List.cons.injEq, and_true]
    omega
  | case3 a b =>
    have hb := h b (by simp)
    simp only [toSextets, fromSextets, Option.some.injEq, List.cons.injEq, and_true]
    omega
  | case4 a b c rest ih =>
    have hb := h b (by simp)
    have hc := h c (by simp)
    have ih' := ih fun x hx => h x (by simp [hx])
    simp only [toSextets, fromSextets, ih', Option.map_some', Option.some.injEq,
      List.cons.injEq]
    refine ⟨by omega, by omega, by omega, trivial⟩

lemma map_mod_toSextets (bs : List Nat) (h : ∀ b ∈ bs, b < 256) :
    (toSextets bs).map (· % 64) = toSextets bs := by
  have := toSextets_lt bs h
  calc (toSextets bs).map (· % 64)
      = (toSextets bs).map id := by
        apply List.map_congr_left
        intro s hs
        have := this s hs
        simp [Nat.mod_eq_of_lt this]
    _ = toSextets bs := List.map_id _

/-- The decoder inverts the encoder on byte lists. -/
lemma b64url_roundtrip (bs : List Nat) (h : ∀ b ∈ bs, b < 256) :
    b64urlDecode (b64url bs) = some bs := by
  have hdrop : dropTrailingEqs (b64url bs) = b64url bs :=
    dropTrailingEqs_of_not_mem _ (eq_not_mem_b64url bs)
  have hsx : sextetsOfChars (b64url bs) = some (toSextets bs) := by
    rw [b64url, sextetsOfChars_map, map_mod_toSextets bs h]
  simp only [b64urlDecode, filter_b64url, hdrop, ite_self, hsx]
  exact fromSextets_toSextets bs h

/-! ## JSON values and payloads

A payload (`Record<string, unknown>`) is modelled as an association list of
keys to JSON values; JSON numbers are modelled as integers (the payloads
the code builds carry only integral epoch seconds). -/

inductive JVal where
  | num (n : Int)
  | str (s : String)
  | boolv (b : Bool)
  | nullv
deriving DecidableEq

abbrev Payload := List (String × JVal)

/-- JS property read `payload[k]` on a decoded JSON object. -/
def getField (p : Payload) (k : String) : Option JVal :=
  match p.find? (fun e => e.1 == k) with
  | some e => some e.2
  | none => none

/-- The platform primitives the JWT code calls, abstracted: the HMAC-SHA256
of `crypto.subtle` (keyed byte MAC) and the `JSON.stringify`/`JSON.parse`
(+ `TextEncoder`/`TextDecoder`) composition on payload objects.  Both emit
bytes. -/
structure JwtParams where
  mac : List Nat → List Nat → List Nat
  jenc : Payload → List Nat
  jdec : List Nat → Option Payload
  mac_byte : ∀ k m, ∀ b ∈ mac k m, b < 256
  jenc_byte : ∀ p, ∀ b ∈ jenc p, b < 256

/-- `JSON.stringify({ alg: 'HS256', typ: 'JWT' })`. -/
def headerStr : String := "\x7b\"alg\":\"HS256\",\"typ\":\"JWT\"\x7d"

/-- `header + "." + body`, the input of the MAC. -/
def signingInput (pr : JwtParams) (p : Payload) : List Char :=
  b64url (utf8Str headerStr) ++ '.' :: b64url (pr.jenc p)

/-- Source function `signJWT`. -/
def signJWT (pr : JwtParams) (p : Payload) (secret : String) : List Char :=
  signingInput pr p ++
    '.' :: b64url (pr.mac (utf8Str secret) (utf8Chars (signingInput pr p)))

/-- JS `token.split('.')`. -/
def splitOnDot : List Char → List (List Char)
  | [] => [[]]
  | c :: rest =>
    match splitOnDot rest with
    | [] => [[c]]
    | s :: ss => if c = '.' then [] :: s :: ss else (c :: s) :: ss

/-- Outcome of `verifyJWT`: a thrown exception (rejected promise), a `null`
return, or a decoded payload. -/
inductive VerifyOut where
  | raised
  | failv
  | ok (p : Payload)
deriving DecidableEq

/-- Source function `verifyJWT`.  Note the faithful placement of the
signature-segment base64 decode *outside* the `try` block: an invalid
signature segment raises, while an undecodable body or payload is caught
and returns `null`. -/
def verifyJWT (pr : JwtParams) (token : List Char) (secret : String) (now : Int) :
    VerifyOut :=
  match splitOnDot token with
  | [h, b, s] =>
    match b64urlDecode s with
    | none => .raised
    | some sigBytes =>
      if pr.mac (utf8Str secret) (utf8Chars (h ++ '.' :: b)) = sigBytes then
        match b64urlDecode b with
        | none => .failv
        | some bodyBytes =>
          match pr.jdec bodyBytes with
          | none => .failv
          | some payload =>
            match getField payload "exp" with
            | some (JVal.num e) => if e < now then .failv else .ok payload
            | _ => .ok payload
      else .failv
  | _ => .failv

/-! ### Splitting lemmas -/

lemma splitOnDot_ne_nil (cs : List Char) : splitOnDot cs ≠ [] := by
  cases cs with
  | nil => simp [splitOnDot]
  | cons c rest =>
    simp only [splitOnDot]
    rcases hr : splitOnDot rest with _ | ⟨s, ss⟩
    · simp [hr]
    · simp only [hr]
      split <;> simp

lemma splitOnDot_no_dot (a : List Char) (h : '.' ∉ a) : splitOnDot a = [a] := by
  induction a with
  | nil => rfl
  | cons c rest ih =>
    have hc : c ≠ '.' := fun e => h (by simp [e])
    have hr : splitOnDot rest = [rest] := ih fun hm => h (by simp [hm])
    simp [splitOnDot, hr, hc]

lemma splitOnDot_append (a rest : List Char) (h : '.' ∉ a) :
    splitOnDot (a ++ '.' :: rest) = a :: splitOnDot rest := by
  induction a with
  | nil =>
    simp only [List.nil_append, splitOnDot]
    rcases hr : splitOnDot rest with _ | ⟨s, ss⟩
    · exact absurd hr (splitOnDot_ne_nil rest)
    · simp
  | cons c cs ih =>
    have hc : c ≠ '.' := fun e => h (by simp [e])
    have ih' := ih fun hm => h (by simp [hm])
    simp only [List.cons_append, splitOnDot, List.append_eq]
    rw [ih']
    simp [hc]

/-- Splitting a signed token recovers the three segments. -/
lemma splitOnDot_signJWT (pr : JwtParams) (p : Payload) (secret : String) :
    splitOnDot (signJWT pr p secret) =
      [b64url (utf8Str headerStr), b64url (pr.jenc p),
       b64url (pr.mac (utf8Str secret) (utf8Chars (signingInput pr p)))] := by
  show splitOnDot ((b64url (utf8Str headerStr) ++ '.' :: b64url (pr.jenc p)) ++
      '.' :: b64url (pr.mac (utf8Str secret) (utf8Chars (signingInput pr p)))) = _
  rw [List.append_assoc, List.cons_append]
  rw [splitOnDot_append _ _ (dot_not_mem_b64url _)]
  rw [splitOnDot_append _ _ (dot_not_mem_b64url _)]
  rw [splitOnDot_no_dot _ (dot_not_mem_b64url _)]

/-- Evaluation of `verifyJWT` on a token produced by `signJWT`: the
signature check compares the MAC under the verifying secret with the MAC
under the signing secret; when they agree and the JSON codec round-trips,
the outcome is governed by the `exp` field alone. -/
lemma verifyJWT_signJWT (pr : JwtParams) (p : Payload) (sk vk : String) (now : Int)
    (hjd : pr.jdec (pr.jenc p) = some p) :
    verifyJWT pr (signJWT pr p sk) vk now =
      if pr.mac (utf8Str vk) (utf8Chars (signingInput pr p)) =
          pr.mac (utf8Str sk) (utf8Chars (signingInput pr p)) then
        match getField p "exp" with
        | some (JVal.num e) => if e < now then VerifyOut.failv else VerifyOut.ok p
        | _ => VerifyOut.ok p
      else VerifyOut.failv := by
  unfold verifyJWT
  rw [splitOnDot_signJWT]
  simp only [b64url_roundtrip _ (pr.mac_byte (utf8Str sk) (utf8Chars (signingInput pr p))),
    b64url_roundtrip _ (pr.jenc_byte p), hjd]
  rfl

/-! ## State nonce store (`generateState` / `consumeState`)

The Cloudflare KV namespace is modelled as an association list from keys to
values with absolute expiry instants; an expired key is absent. -/

structure KvEntry where
  key : String
  value : String
  exp : Int
deriving DecidableEq

abbrev Kv := List KvEntry

/-- Remove a key (`kv.delete`). -/
def kvDelete (kv : Kv) (k : String) : Kv := kv.filter fun e => !(e.key == k)

/-- Store a key (`kv.put` with `expirationTtl` already turned into an
absolute expiry instant). -/
def kvPut (kv : Kv) (k v : String) (e : Int) : Kv := ⟨k, v, e⟩ :: kvDelete kv k

/-- Read a key (`kv.get`): an expired key reads as absent. -/
def kvGet (kv : Kv) (k : String) (now : Int) : Option String :=
  match kv.find? (fun e => e.key == k) with
  | some e => if now < e.exp then some e.value else none
  | none => none

/-- Lower-case hex digit. -/
def hexDigit (n : Nat) : Char :=
  if n < 10 then Char.ofNat (48 + n) else Char.ofNat (87 + n)

/-- `b.toString(16).padStart(2, '0')` for a byte. -/
def hexByte (b : Nat) : List Char := [hexDigit (b / 16 % 16), hexDigit (b % 16)]

def hexOfBytes (bs : List Nat) : String := String.mk ((bs.map hexByte).flatten)

/-- Source function `generateState`: hex-encode the 16 random bytes and
store a marker under `oauth_state:<nonce>` with a 600-second TTL. -/
def generateState (kv : Kv) (rnd : List Nat) (now : Int) : String × Kv :=
  let st := hexOfBytes rnd
  (st, kvPut kv ("oauth_state:" ++ st) "1" (now + 600))

/-- Source function `consumeState`: read-then-delete. -/
def consumeState (kv : Kv) (st : String) (now : Int) : Bool × Kv :=
  match kvGet kv ("oauth_state:" ++ st) now with
  | some _ => (true, kvDelete kv ("oauth_state:" ++ st))
  | none => (false, kv)

/-! ## Relational store and the identity upsert engine (`upsertUser`) -/

structure UserRow where
  id : String
  email : Option String
  username : Option String
  display_name : Option String
  avatar_url : Option String
deriving DecidableEq

structure OauthRow where
  rid : String
  user_id : String
  provider : String
  provider_user_id : String
  access_token : String
deriving DecidableEq

structure Db where
  users : List UserRow
  accounts : List OauthRow
deriving DecidableEq

structure Profile where
  email : Option String
  username : Option String
  displayName : Option String
  avatarUrl : Option String
deriving DecidableEq

/-- The `WHERE provider = ? AND provider_user_id = ?` predicate. -/
def accMatches (prov puid : String) (a : OauthRow) : Bool :=
  a.provider == prov && a.provider_user_id == puid

/-- SQL `COALESCE(incoming, stored)`. -/
def coalesce (a b : Option String) : Option String :=
  match a with
  | some x => some x
  | none => b

/-- Source function `upsertUser`: find the linked account by
(provider, provider_user_id); if found, update its access token and
coalesce-update the owning user's email / display name / avatar, returning
the existing user id; otherwise insert a fresh user and account row.  The
fresh random ids are passed in as `nuid`/`naid`. -/
def upsertUser (db : Db) (prov puid : String) (prof : Profile) (tok : String)
    (nuid naid : String) : String × Db :=
  match db.accounts.find? (accMatches prov puid) with
  | some acc =>
    let accounts := db.accounts.map fun a =>
      if accMatches prov puid a then { a with access_token := tok } else a
    let users := db.users.map fun u =>
      if u.id == acc.user_id then
        { u with
          email := coalesce prof.email u.email,
          display_name := coalesce prof.displayName u.display_name,
          avatar_url := coalesce prof.avatarUrl u.avatar_url }
      else u
    (acc.user_id, ⟨users, accounts⟩)
  | none =>
    (nuid,
      ⟨db.users ++ [⟨nuid, prof.email, prof.username, prof.displayName, prof.avatarUrl⟩],
       db.accounts ++ [⟨naid, nuid, prov, puid, tok⟩]⟩)

/-! ## Cookie extraction, auth gate middleware, and `/auth/me` -/

structure AuthUser where
  id : String
  email : Option String
  username : Option String
  display_name : Option String
  avatar_url : Option String
deriving DecidableEq

/-- `wokspec_session=`. -/
def sessionKey : List Char := "wokspec_session=".data

/-- Strip a leading pattern off a character list. -/
def chopLead : List Char → List Char → Option (List Char)
  | [], l => some l
  | _ :: _, [] => none
  | p :: ps, c :: cs => if c = p then chopLead ps cs else none

/-- The regex match `cookieHeader.match(/wokspec_session=([^;]+)/)?.[1]`:
scan positions left to right; at each, try the literal key followed by a
non-empty run of non-`;` characters. -/
def extractToken : List Char → Option (List Char)
  | [] => none
  | c :: rest =>
    match chopLead sessionKey (c :: rest) with
    | some after =>
      let tok := after.takeWhile fun x => x ≠ ';'
      if tok = [] then extractToken rest else some tok
    | none => extractToken rest

/-- Outcome of the `requireAuth` middleware: a thrown exception, a 401
short-circuit (status, error code, message), or execution of the wrapped
handler with the resolved user injected. -/
inductive GateOut where
  | raisedG
  | errG (status : Nat) (code : String) (msg : String)
  | proceedG (u : AuthUser)
deriving DecidableEq

/-- Source middleware `requireAuth` (the `DB.prepare(...).first` lookup is
the function `db`). -/
def requireAuth (pr : JwtParams) (cookieHeader : List Char) (secret : String)
    (now : Int) (db : String → Option AuthUser) : GateOut :=
  match extractToken cookieHeader with
  | none => .errG 401 "UNAUTHORIZED" "Not authenticated"
  | some tok =>
    match verifyJWT pr tok secret now with
    | .raised => .raisedG
    | .failv => .errG 401 "UNAUTHORIZED" "Invalid session"
    | .ok payload =>
      match getField payload "sub" with
      | some (JVal.str sub) =>
        match db sub with
        | some u => .proceedG u
        | none => .errG 401 "UNAUTHORIZED" "User not found"
      | _ => .errG 401 "UNAUTHORIZED" "Invalid session"

/-- A client-visible HTTP response. -/
structure HttpResp where
  status : Nat
  body : String
  setCookie : Option (List Char)
  location : Option String
deriving DecidableEq

/-- Body of `c.json({ error: msg })`. -/
def jErr (msg : String) : String := "\x7b\"error\":\"" ++ msg ++ "\"\x7d"

/-- Body of `c.json({ ok: false, error: msg })`. -/
def meErrBody (msg : String) : String :=
  "\x7b\"ok\":false,\"error\":\"" ++ msg ++ "\"\x7d"

/-- Outcome of `GET /auth/me`. -/
inductive MeOut where
  | raisedM
  | errM (r : HttpResp)
  | okM (u : AuthUser)
deriving DecidableEq

/-- Source handler `auth.get('/me')`. -/
def meHandler (pr : JwtParams) (cookieHeader : List Char) (secret : String)
    (now : Int) (db : String → Option AuthUser) : MeOut :=
  match extractToken cookieHeader with
  | none => .errM ⟨401, meErrBody "Unauthorized", none, none⟩
  | some tok =>
    match verifyJWT pr tok secret now with
    | .raised => .raisedM
    | .failv => .errM ⟨401, meErrBody "Invalid session", none, none⟩
    | .ok payload =>
      match getField payload "sub" with
      | some (JVal.str sub) =>
        match db sub with
        | some u => .okM u
        | none => .errM ⟨401, meErrBody "User not found", none, none⟩
      | _ => .errM ⟨401, meErrBody "Invalid session", none, none⟩

/-! ## GitHub OAuth callback (`auth.get('/github/callback')`)

The upstream provider is modelled as an oracle giving the responses of the
three endpoints the handler may call; the second component of the result
lists the upstream calls actually made, in order. -/

structure GhUser where
  gid : Int
  login : String
  name : Option String
  avatar_url : String
  email : Option String
deriving DecidableEq

structure GhEmail where
  email : String
  primary : Bool
  verified : Bool
deriving DecidableEq

structure GhOracle where
  accessToken : Option String
  user : GhUser
  emails : List GhEmail
deriving DecidableEq

inductive UpCall where
  | tokenExchange
  | profileFetch
  | emailsFetch
deriving DecidableEq

/-- JS truthiness of an optional string (`undefined`/`null`/`''` falsy). -/
def truthyS : Option String → Bool
  | none => false
  | some s => !(s == "")

/-- `emails.find(primary && verified)?.email ?? emails[0]?.email ?? null`. -/
def emailFromList (es : List GhEmail) : Option String :=
  match es.find? (fun e => e.primary && e.verified) with
  | some e => some e.email
  | none =>
    match es.head? with
    | some e => some e.email
    | none => none

def POST_LOGIN_REDIRECT : String := "https://wokspec.org/account"

/-- The `Set-Cookie` value built by `sessionCookie(token)`. -/
def sessionCookieStr (tok : List Char) : List Char :=
  "wokspec_session=".data ++ tok ++
    "; HttpOnly; Secure; SameSite=Lax; Path=/; Max-Age=604800".data

/-- Source function `createSession`: a 7-day session token for `uid`. -/
def createSession (pr : JwtParams) (secret uid : String) (now : Int) : List Char :=
  signJWT pr [("sub", JVal.str uid), ("exp", JVal.num (now + 604800))] secret

/-- Source handler `auth.get('/github/callback')`. -/
def githubCallback (pr : JwtParams) (secret : String) (kv : Kv) (db : Db)
    (now : Int) (code state : Option String) (orc : GhOracle) (nuid naid : String) :
    HttpResp × List UpCall × Kv × Db :=
  if !truthyS code || !truthyS state then
    (⟨400, jErr "Missing code or state", none, none⟩, [], kv, db)
  else
    match consumeState kv (state.getD "") now with
    | (false, kv1) => (⟨400, jErr "Invalid state", none, none⟩, [], kv1, db)
    | (true, kv1) =>
      if !truthyS orc.accessToken then
        (⟨400, jErr "Token exchange failed", none, none⟩, [.tokenExchange], kv1, db)
      else
        let tok := orc.accessToken.getD ""
        let gh := orc.user
        let fetchedEmails := !truthyS gh.email
        let email := if fetchedEmails then emailFromList orc.emails else gh.email
        let calls := if fetchedEmails then
            [UpCall.tokenExchange, UpCall.profileFetch, UpCall.emailsFetch]
          else [UpCall.tokenExchange, UpCall.profileFetch]
        let r := upsertUser db "github" (toString gh.gid)
          ⟨email, some gh.login, gh.name, some gh.avatar_url⟩ tok nuid naid
        let sess := createSession pr secret r.1 now
        (⟨302, "", some (sessionCookieStr sess), some POST_LOGIN_REDIRECT⟩, calls, kv1, r.2)

/-! ## Concrete instantiation of the platform parameters

Used for evaluating the model at concrete inputs: a MAC that simply
truncates its key to bytes (injective on the one-byte ASCII secrets used
below), and a JSON codec that is the identity-like bijection on the three
concrete payloads of interest. -/

def P0 : Payload := [("sub", JVal.str "u1"), ("exp", JVal.num 100)]

def P1 : Payload := [("sub", JVal.str "u1")]

def P2 : Payload := [("exp", JVal.num 5)]

def encIdx (p : Payload) : Nat :=
  if p = P0 then 65 else if p = P1 then 66 else if p = P2 then 67 else 68

def jdec0 (bs : List Nat) : Option Payload :=
  if bs = [65] then some P0
  else if bs = [66] then some P1
  else if bs = [67] then some P2
  else none

def pr0 : JwtParams where
  mac := fun k _ => k.map (· % 256)
  jenc := fun p => [encIdx p]
  jdec := jdec0
  mac_byte := by
    intro k m b hb
    simp only [List.mem_map] at hb
    rcases hb with ⟨x, _, rfl⟩
    omega
  jenc_byte := by
    intro p b hb
    simp only [List.mem_singleton] at hb
    subst hb
    unfold encIdx
    split_ifs <;> omega

/-- RFC 2104 / FIPS 198 HMAC key preprocessing over an abstract underlying
hash `h` (block size 64, as for SHA-256): a key longer than the block is
hashed, then the key is zero-padded to the block size and combined with the
`ipad`/`opad` constants.  This is the structure of the platform
`crypto.subtle` HMAC for *every* choice of the underlying hash; only the
compression function is left abstract. -/
def hmacOf (h : List Nat → List Nat) (k m : List Nat) : List Nat :=
  let k1 := if 64 < k.length then h k else k
  let k0 := k1 ++ List.replicate (64 - k1.length) 0
  h ((k0.map fun b => Nat.xor b 92) ++ h ((k0.map fun b => Nat.xor b 54) ++ m))

/-- Zero-padding makes HMAC keys collide deterministically: for every
underlying hash, a key below the block size and the same key extended by a
zero byte yield the same MAC on every message.  (In particular this holds
for HMAC-SHA256, so distinct secrets can share all their MACs.) -/
lemma hmacOf_key_zero_pad (h : List Nat → List Nat) (k m : List Nat)
    (hk : k.length < 64) : hmacOf h (k ++ [0]) m = hmacOf h k m := by
  have h1 : ¬ 64 < (k ++ [0]).length := by
    simp only [List.length_append, List.length_cons, List.length_nil]
    omega
  have h2 : ¬ 64 < k.length := by omega
  have hpad : (k ++ [0]) ++ List.replicate (64 - (k ++ [0]).length) 0
      = k ++ List.replicate (64 - k.length) 0 := by
    rw [List.append_assoc]
    congr 1
    have hlen : (k ++ [0]).length = k.length + 1 := by simp
    rw [hlen]
    have hsucc : 64 - k.length = (64 - (k.length + 1)) + 1 := by omega
    rw [hsucc, List.replicate_succ]
    rfl
  simp only [hmacOf]
  rw [if_neg h1, if_neg h2, hpad]

/-- A concrete byte-valued underlying hash for evaluating `hmacOf`. -/
def h0 : List Nat → List Nat := fun l => [(l.foldl (fun a b => a + b) 0) % 256]

/-- Platform parameters whose MAC is the HMAC structure over `h0`; used to
exhibit the zero-padded-key collision in the real MAC's shape. -/
def prH : JwtParams where
  mac := hmacOf h0
  jenc := fun p => [encIdx p]
  jdec := jdec0
  mac_byte := by
    intro k m b hb
    simp [hmacOf, h0] at hb
    omega
  jenc_byte := by
    intro p b hb
    simp only [List.mem_singleton] at hb
    subst hb
    unfold encIdx
    split_ifs <;> omega

/-! ## Helper lemmas shared by the claim theorems -/

lemma find_append_none {α} (p : α → Bool) (l1 l2 : List α) (h : l1.find? p = none) :
    (l1 ++ l2).find? p = l2.find? p := by
  induction l1 with
  | nil => simp
  | cons a l ih =>
    cases hpa : p a with
    | true =>
      rw [List.find?_cons_of_pos _ hpa] at h
      exact absurd h (by simp)
    | false =>
      rw [List.find?_cons_of_neg _ (by simp [hpa])] at h
      rw [List.cons_append, List.find?_cons_of_neg _ (by simp [hpa])]
      exact ih h

/-- A three-segment token whose signature has valid base64 but whose MAC
does not match is rejected (with `null`, not an exception). -/
lemma verifyJWT_bad_sig (pr : JwtParams) (tok : List Char) (secret : String)
    (now : Int) (hh bb ss : List Char) (sb : List Nat)
    (hsplit : splitOnDot tok = [hh, bb, ss])
    (hdec : b64urlDecode ss = some sb)
    (hne : pr.mac (utf8Str secret) (utf8Chars (hh ++ '.' :: bb)) ≠ sb) :
    verifyJWT pr tok secret now = VerifyOut.failv := by
  unfold verifyJWT
  rw [hsplit]
  simp only [hdec, if_neg hne]

lemma kvGet_put_same (kv : Kv) (k v : String) (e now : Int) (h : now < e) :
    kvGet (kvPut kv k v e) k now = some v := by
  unfold kvGet kvPut
  rw [List.find?_cons_of_pos _ (by simp)]
  simp [h]

lemma kvGet_put_expired (kv : Kv) (k v : String) (e now : Int) (h : e ≤ now) :
    kvGet (kvPut kv k v e) k now = none := by
  unfold kvGet kvPut
  rw [List.find?_cons_of_pos _ (by simp)]
  simp [not_lt.mpr h]

lemma kvGet_delete (kv : Kv) (k : String) (t : Int) :
    kvGet (kvDelete kv k) k t = none := by
  unfold kvGet kvDelete
  have hf : (kv.filter fun e => !(e.key == k)).find? (fun e => e.key == k) = none := by
    rw [List.find?_eq_none]
    intro x hx
    have hx2 := (List.mem_filter.mp hx).2
    simp at hx2 ⊢
    exact hx2
  rw [hf]

/-! ## Claim theorems -/

/-- C1 (counterexample): both halves of the claim fail as stated.  First,
the round-trip `verify(sign(P, S), S) == P` fails for a payload whose
numeric `exp` lies before the current time: with a faithfully
round-tripping JSON codec and the matching secret, verification of the
freshly signed token returns the failure result.  Second, the
wrong-secret half `verify(sign(P, S), S2)` fails for *every* `S2 ≠ S` is
false: HMAC zero-pads keys to the block size, so the distinct secrets
`"a"` and `"a\x00"` have the same MAC on every message (here in the real
HMAC key-processing structure `hmacOf`), and verification under the
second secret *succeeds*, returning the payload. -/
theorem c1_counterexample :
    (pr0.jdec (pr0.jenc P2) = some P2 ∧
      verifyJWT pr0 (signJWT pr0 P2 "a") "a" 100 = VerifyOut.failv) ∧
    (("a" : String) ≠ "a\x00" ∧
      hmacOf h0 (utf8Str "a\x00") (utf8Chars (signingInput prH P0)) =
        hmacOf h0 (utf8Str "a") (utf8Chars (signingInput prH P0)) ∧
      verifyJWT prH (signJWT prH P0 "a") "a\x00" 100 = VerifyOut.ok P0) := by
  decide

/-- C1 (amended): provided the payload's numeric `exp` (when present) is
not before the current time, verifying `sign(P, S)` with `S` returns
exactly `P`; and verifying it with a secret `S2` fails exactly when the
MAC of the signed message under `S2` differs from the MAC under `S` — it
fails whenever the MACs differ, and returns the payload whenever they
agree (as they do, e.g., for zero-padded variants of the same HMAC key,
which is why the original `S2 ≠ S` formulation is too strong). -/
theorem c1_roundtrip (pr : JwtParams) (P : Payload) (S S2 : String) (now : Int)
    (hjd : pr.jdec (pr.jenc P) = some P)
    (hexp : ∀ e : Int, getField P "exp" = some (JVal.num e) → now ≤ e) :
    verifyJWT pr (signJWT pr P S) S now = VerifyOut.ok P ∧
    (pr.mac (utf8Str S2) (utf8Chars (signingInput pr P)) ≠
        pr.mac (utf8Str S) (utf8Chars (signingInput pr P)) →
      verifyJWT pr (signJWT pr P S) S2 now = VerifyOut.failv) ∧
    (pr.mac (utf8Str S2) (utf8Chars (signingInput pr P)) =
        pr.mac (utf8Str S) (utf8Chars (signingInput pr P)) →
      verifyJWT pr (signJWT pr P S) S2 now = VerifyOut.ok P) := by
  have hok : ∀ V : String,
      pr.mac (utf8Str V) (utf8Chars (signingInput pr P)) =
        pr.mac (utf8Str S) (utf8Chars (signingInput pr P)) →
      verifyJWT pr (signJWT pr P S) V now = VerifyOut.ok P := by
    intro V hmaceq
    rw [verifyJWT_signJWT pr P S V now hjd, if_pos hmaceq]
    rcases hf : getField P "exp" with _ | v
    · simp only [hf]
    · cases v with
      | num e =>
        simp only [hf]
        rw [if_neg (not_lt.mpr (hexp e hf))]
      | str s => simp only [hf]
      | boolv b => simp only [hf]
      | nullv => simp only [hf]
  refine ⟨hok S rfl, ?_, hok S2⟩
  intro hne
  rw [verifyJWT_signJWT pr P S S2 now hjd, if_neg hne]

/-- C1 witness: concrete round trip, rejection under a secret with a
different MAC, and acceptance under a distinct secret whose zero-padded
HMAC key collides with the signing secret's. -/
theorem c1_roundtrip_witness :
    verifyJWT pr0 (signJWT pr0 P0 "a") "a" 100 = VerifyOut.ok P0 ∧
    verifyJWT pr0 (signJWT pr0 P0 "a") "b" 100 = VerifyOut.failv ∧
    verifyJWT prH (signJWT prH P0 "a") "a\x00" 100 = VerifyOut.ok P0 := by
  have hexp : ∀ e : Int, getField P0 "exp" = some (JVal.num e) → (100 : Int) ≤ e := by
    intro e he
    rw [show getField P0 "exp" = some (JVal.num 100) from rfl] at he
    simp only [Option.some.injEq, JVal.num.injEq] at he
    omega
  have h := c1_roundtrip pr0 P0 "a" "b" 100 (by decide) hexp
  have h2 := c1_roundtrip prH P0 "a" "a\x00" 100 (by decide) hexp
  exact ⟨h.1, h.2.1 (by decide), h2.2.2 (by decide)⟩

/-- C2 (counterexample): a correctly signed token whose `exp` equals the
current floor-truncated epoch second is *accepted* by `verify` (the code
checks `exp < now`, not `exp <= now`), while the claim requires it to be
rejected. -/
theorem c2_counterexample :
    verifyJWT pr0 (signJWT pr0 P0 "s") "s" 100 = VerifyOut.ok P0 := by
  decide

/-- C2 (amended): for a correctly signed token whose payload carries a
numeric `exp`, verification fails exactly when `exp` is *strictly* before
the current epoch second; a token with `exp` equal to the current second
is accepted. -/
theorem c2_exp_reject (pr : JwtParams) (P : Payload) (S : String) (now e : Int)
    (hjd : pr.jdec (pr.jenc P) = some P)
    (hf : getField P "exp" = some (JVal.num e)) :
    verifyJWT pr (signJWT pr P S) S now =
      if e < now then VerifyOut.failv else VerifyOut.ok P := by
  rw [verifyJWT_signJWT pr P S S now hjd, if_pos rfl]
  simp only [hf]

/-- C2 witness: a token with `exp = 5` is rejected at time 100. -/
theorem c2_exp_reject_witness :
    verifyJWT pr0 (signJWT pr0 P2 "a") "a" 100 = VerifyOut.failv := by
  have h := c2_exp_reject pr0 P2 "a" 100 5 (by decide) (by decide)
  rw [h]
  decide

/-- C3 (code evaluation at the failing input): a token with three segments
whose signature segment is not valid base64 makes `verifyJWT` raise (the
`b64urlDecode(sig)` call sits outside the `try` block), contradicting the
claim that `verify` never raises; tokens with fewer than three segments
are, as claimed, rejected without raising. -/
theorem c3_raise_on_bad_sig_segment :
    verifyJWT pr0 ("a.b.%".data) "s" 0 = VerifyOut.raised ∧
    verifyJWT pr0 ("ab".data) "s" 0 = VerifyOut.failv ∧
    verifyJWT pr0 ("a.b".data) "s" 0 = VerifyOut.failv ∧
    verifyJWT pr0 ("a.b.c.d".data) "s" 0 = VerifyOut.failv := by
  decide

/-- C9: a correctly signed token whose payload has no numeric `exp` field
at all (absent, or present with a non-numeric value) is accepted at every
current time — such a session never expires by timestamp comparison. -/
theorem c9_no_numeric_exp_accepted (pr : JwtParams) (P : Payload) (S : String)
    (now : Int) (hjd : pr.jdec (pr.jenc P) = some P)
    (hne : ∀ e : Int, getField P "exp" ≠ some (JVal.num e)) :
    verifyJWT pr (signJWT pr P S) S now = VerifyOut.ok P := by
  rw [verifyJWT_signJWT pr P S S now hjd, if_pos rfl]
  rcases hf : getField P "exp" with _ | v
  · simp only [hf]
  · cases v with
    | num e => exact absurd hf (hne e)
    | str s => simp only [hf]
    | boolv b => simp only [hf]
    | nullv => simp only [hf]

/-- C9 witness: a payload without `exp` is accepted far in the future. -/
theorem c9_witness :
    verifyJWT pr0 (signJWT pr0 P1 "a") "a" 99999999 = VerifyOut.ok P1 := by
  refine c9_no_numeric_exp_accepted pr0 P1 "a" 99999999 (by decide) ?_
  intro e he
  rw [show getField P1 "exp" = none from rfl] at he
  exact Option.noConfusion he

/-- C4: a freshly issued nonce is consumed successfully exactly once
before its 600-second expiry, the consumption deletes the stored key, any
later consume of the same nonce returns false, a consume at or after the
expiry instant returns false, and a consume of a nonce that is absent from
the store (never issued, already consumed, or expired) returns false. -/
theorem c4_nonce_single_use (kv : Kv) (rnd : List Nat) (now t1 t2 t3 : Int) (n : String) :
    (t1 < now + 600 →
      (consumeState (generateState kv rnd now).2 (generateState kv rnd now).1 t1).1 = true ∧
      kvGet (consumeState (generateState kv rnd now).2 (generateState kv rnd now).1 t1).2
        ("oauth_state:" ++ (generateState kv rnd now).1) t2 = none ∧
      (consumeState
        (consumeState (generateState kv rnd now).2 (generateState kv rnd now).1 t1).2
        (generateState kv rnd now).1 t2).1 = false) ∧
    (now + 600 ≤ t1 →
      (consumeState (generateState kv rnd now).2 (generateState kv rnd now).1 t1).1 = false) ∧
    (kvGet kv ("oauth_state:" ++ n) t3 = none → (consumeState kv n t3).1 = false) := by
  refine ⟨?_, ?_, ?_⟩
  · intro h1
    have hget : kvGet (kvPut kv ("oauth_state:" ++ hexOfBytes rnd) "1" (now + 600))
        ("oauth_state:" ++ hexOfBytes rnd) t1 = some "1" :=
      kvGet_put_same _ _ _ _ _ h1
    simp only [generateState, consumeState, hget]
    have hdel : kvGet
        (kvDelete (kvPut kv ("oauth_state:" ++ hexOfBytes rnd) "1" (now + 600))
          ("oauth_state:" ++ hexOfBytes rnd))
        ("oauth_state:" ++ hexOfBytes rnd) t2 = none := kvGet_delete _ _ _
    simp only [hdel]
    exact ⟨trivial, trivial, trivial⟩
  · intro h1
    have hget : kvGet (kvPut kv ("oauth_state:" ++ hexOfBytes rnd) "1" (now + 600))
        ("oauth_state:" ++ hexOfBytes rnd) t1 = none :=
      kvGet_put_expired _ _ _ _ _ h1
    simp only [generateState, consumeState, hget]
  · intro hget
    simp only [consumeState, hget]

/-- C4 witness: concrete issue/consume/reconsume trace plus the expired and
never-issued cases. -/
theorem c4_nonce_witness :
    (consumeState (generateState [] [171] 0).2 (generateState [] [171] 0).1 5).1 = true ∧
    kvGet (consumeState (generateState [] [171] 0).2 (generateState [] [171] 0).1 5).2
      ("oauth_state:" ++ (generateState [] [171] 0).1) 7 = none ∧
    (consumeState (consumeState (generateState [] [171] 0).2 (generateState [] [171] 0).1 5).2
      (generateState [] [171] 0).1 7).1 = false ∧
    (consumeState (generateState [] [171] 0).2 (generateState [] [171] 0).1 700).1 = false ∧
    (consumeState [] "zz" 1).1 = false := by
  have h1 := (c4_nonce_single_use [] [171] 0 5 7 1 "zz").1 (by decide)
  have h2 := (c4_nonce_single_use [] [171] 0 700 7 1 "zz").2.1 (by decide)
  have h3 := (c4_nonce_single_use [] [171] 0 5 7 1 "zz").2.2 (by decide)
  exact ⟨h1.1, h1.2.1, h1.2.2, h2, h3⟩

/-- C5: starting from a store with no linked account for
(provider, providerUserId) and a fresh user id, the first `upsert` inserts
one user and one account row; a second `upsert` for the same pair returns
the same user id, adds no rows (one user row and one account row
attributable to the pair), and the stored user ends up with
coalesce-updated email, display name and avatar (a non-null later value
overwrites, a null later value leaves the earlier value), while the
username keeps its first-write value. -/
theorem c5_upsert_idempotent (db : Db) (prov puid : String) (p1 p2 : Profile)
    (t1 t2 id1 a1 id2 a2 : String)
    (hnone : db.accounts.find? (accMatches prov puid) = none)
    (hfresh : ∀ u ∈ db.users, u.id ≠ id1) :
    (upsertUser db prov puid p1 t1 id1 a1).1 = id1 ∧
    (upsertUser (upsertUser db prov puid p1 t1 id1 a1).2 prov puid p2 t2 id2 a2).1 = id1 ∧
    (upsertUser (upsertUser db prov puid p1 t1 id1 a1).2 prov puid p2 t2 id2 a2).2.users.length
      = db.users.length + 1 ∧
    (upsertUser (upsertUser db prov puid p1 t1 id1 a1).2 prov puid p2 t2 id2 a2).2.accounts.length
      = db.accounts.length + 1 ∧
    (upsertUser (upsertUser db prov puid p1 t1 id1 a1).2 prov puid p2 t2 id2 a2).2.accounts.countP
      (accMatches prov puid) = 1 ∧
    ((upsertUser (upsertUser db prov puid p1 t1 id1 a1).2 prov puid p2 t2 id2 a2).2.users.find?
        fun u => u.id == id1)
      = some ⟨id1, coalesce p2.email p1.email, p1.username,
          coalesce p2.displayName p1.displayName, coalesce p2.avatarUrl p1.avatarUrl⟩ := by
  have h1 : upsertUser db prov puid p1 t1 id1 a1 =
      (id1, ⟨db.users ++
          [({ id := id1, email := p1.email, username := p1.username,
              display_name := p1.displayName, avatar_url := p1.avatarUrl } : UserRow)],
        db.accounts ++
          [({ rid := a1, user_id := id1, provider := prov, provider_user_id := puid,
              access_token := t1 } : OauthRow)]⟩) := by
    simp only [upsertUser, hnone]
  have hmatch : accMatches prov puid
      ({ rid := a1, user_id := id1, provider := prov, provider_user_id := puid,
         access_token := t1 } : OauthRow) = true := by
    simp [accMatches]
  have hfind2 : (db.accounts ++
      [({ rid := a1, user_id := id1, provider := prov, provider_user_id := puid,
          access_token := t1 } : OauthRow)]).find? (accMatches prov puid)
      = some
        ({ rid := a1, user_id := id1, provider := prov, provider_user_id := puid,
           access_token := t1 } : OauthRow) := by
    rw [find_append_none _ _ _ hnone, List.find?_cons_of_pos _ hmatch]
  have h2 : upsertUser (upsertUser db prov puid p1 t1 id1 a1).2 prov puid p2 t2 id2 a2 =
      (id1,
        ⟨(db.users ++
            [({ id := id1, email := p1.email, username := p1.username,
                display_name := p1.displayName, avatar_url := p1.avatarUrl } : UserRow)]).map
            fun u => if u.id == id1 then
              { u with
                email := coalesce p2.email u.email,
                display_name := coalesce p2.displayName u.display_name,
                avatar_url := coalesce p2.avatarUrl u.avatar_url }
            else u,
         (db.accounts ++
            [({ rid := a1, user_id := id1, provider := prov, provider_user_id := puid,
                access_token := t1 } : OauthRow)]).map
            fun a => if accMatches prov puid a then { a with access_token := t2 } else a⟩) := by
    rw [h1]
    simp only [upsertUser, hfind2]
  refine ⟨by rw [h1], by rw [h2], ?_, ?_, ?_, ?_⟩
  · rw [h2]
    simp
  · rw [h2]
    simp
  · rw [h2]
    simp only [List.countP_map]
    have hcongr : ∀ a ∈ db.accounts ++
        [({ rid := a1, user_id := id1, provider := prov, provider_user_id := puid,
            access_token := t1 } : OauthRow)],
        (accMatches prov puid ∘ fun a =>
          if accMatches prov puid a then { a with access_token := t2 } else a) a
          = accMatches prov puid a := by
      intro a _
      simp only [Function.comp_apply]
      split
      · simp [accMatches]
      · rfl
    rw [List.countP_congr fun x hx => by rw [hcongr x hx], List.countP_append]
    have hzero : db.accounts.countP (accMatches prov puid) = 0 := by
      rw [List.countP_eq_zero]
      exact List.find?_eq_none.mp hnone
    rw [hzero]
    simp [hmatch]
  · rw [h2]
    have hprenone : ((db.users.map fun u => if u.id == id1 then
        ({ u with
          email := coalesce p2.email u.email,
          display_name := coalesce p2.displayName u.display_name,
          avatar_url := coalesce p2.avatarUrl u.avatar_url } : UserRow)
        else u).find? fun u => u.id == id1) = none := by
      rw [List.find?_eq_none]
      intro x hx
      rcases List.mem_map.mp hx with ⟨u, hu, rfl⟩
      have hne := hfresh u hu
      have hidpres : (if (u.id == id1) = true then
          ({ u with
            email := coalesce p2.email u.email,
            display_name := coalesce p2.displayName u.display_name,
            avatar_url := coalesce p2.avatarUrl u.avatar_url } : UserRow)
          else u).id = u.id := by
        split <;> rfl
      simp [hidpres, hne]
    rw [List.map_append]
    rw [find_append_none _ _ _ hprenone]
    simp only [List.map_cons, List.map_nil]
    rw [List.find?_cons_of_pos _ (by simp)]
    simp

/-- C5 witness profiles: first login without email, second with email and
display name but no username/avatar. -/
def profA : Profile := ⟨none, some "al", none, none⟩

def profB : Profile := ⟨some "a@b.c", none, some "Al", none⟩

/-- C5 witness: a concrete double-upsert run from the empty store. -/
theorem c5_upsert_witness :
    (upsertUser ⟨[], []⟩ "github" "7" profA "x" "u1" "o1").1 = "u1" ∧
    (upsertUser (upsertUser ⟨[], []⟩ "github" "7" profA "x" "u1" "o1").2
      "github" "7" profB "y" "u2" "o2").1 = "u1" ∧
    (upsertUser (upsertUser ⟨[], []⟩ "github" "7" profA "x" "u1" "o1").2
      "github" "7" profB "y" "u2" "o2").2.users.length = 1 ∧
    (upsertUser (upsertUser ⟨[], []⟩ "github" "7" profA "x" "u1" "o1").2
      "github" "7" profB "y" "u2" "o2").2.accounts.length = 1 ∧
    (upsertUser (upsertUser ⟨[], []⟩ "github" "7" profA "x" "u1" "o1").2
      "github" "7" profB "y" "u2" "o2").2.accounts.countP (accMatches "github" "7") = 1 ∧
    ((upsertUser (upsertUser ⟨[], []⟩ "github" "7" profA "x" "u1" "o1").2
        "github" "7" profB "y" "u2" "o2").2.users.find? fun u => u.id == "u1")
      = some ⟨"u1", coalesce profB.email profA.email, profA.username,
          coalesce profB.displayName profA.displayName,
          coalesce profB.avatarUrl profA.avatarUrl⟩ :=
  c5_upsert_idempotent ⟨[], []⟩ "github" "7" profA profB "x" "y" "u1" "o1" "u2" "o2"
    rfl (by simp)

/-- C6: the auth gate returns the unauthenticated failure when the cookie
is missing, when the token is three well-formed segments with a mismatched
signature, and when a validly verified subject matches no stored user; the
wrapped operation runs exactly when all three checks succeed. -/
theorem c6_auth_gate (pr : JwtParams) (cookie : List Char) (secret : String)
    (now : Int) (db : String → Option AuthUser) (tok hh bb ss : List Char)
    (sb : List Nat) (P : Payload) (sub : String) (u : AuthUser) :
    (extractToken cookie = none →
      requireAuth pr cookie secret now db = .errG 401 "UNAUTHORIZED" "Not authenticated") ∧
    (extractToken cookie = some tok → splitOnDot tok = [hh, bb, ss] →
      b64urlDecode ss = some sb →
      pr.mac (utf8Str secret) (utf8Chars (hh ++ '.' :: bb)) ≠ sb →
      requireAuth pr cookie secret now db = .errG 401 "UNAUTHORIZED" "Invalid session") ∧
    (extractToken cookie = some tok → verifyJWT pr tok secret now = VerifyOut.ok P →
      getField P "sub" = some (JVal.str sub) → db sub = none →
      requireAuth pr cookie secret now db = .errG 401 "UNAUTHORIZED" "User not found") ∧
    (extractToken cookie = some tok → verifyJWT pr tok secret now = VerifyOut.ok P →
      getField P "sub" = some (JVal.str sub) → db sub = some u →
      requireAuth pr cookie secret now db = .proceedG u) ∧
    (requireAuth pr cookie secret now db = .proceedG u →
      ∃ tk Q s2, extractToken cookie = some tk ∧ verifyJWT pr tk secret now = VerifyOut.ok Q ∧
        getField Q "sub" = some (JVal.str s2) ∧ db s2 = some u) := by
  refine ⟨?_, ?_, ?_, ?_, ?_⟩
  · intro he
    simp only [requireAuth, he]
  · intro he h1 h2 h3
    have hv := verifyJWT_bad_sig pr tok secret now hh bb ss sb h1 h2 h3
    simp only [requireAuth, he, hv]
  · intro he hv hg hd
    simp only [requireAuth, he, hv, hg, hd]
  · intro he hv hg hd
    simp only [requireAuth, he, hv, hg, hd]
  · intro hp
    unfold requireAuth at hp
    split at hp
    all_goals try exact absurd hp (by simp)
    rename_i tk he
    split at hp
    all_goals try exact absurd hp (by simp)
    rename_i Q hv
    split at hp
    all_goals try exact absurd hp (by simp)
    rename_i s2 hg
    split at hp
    · rename_i u2 hd
      have hu : u2 = u := by simpa using hp
      exact ⟨tk, Q, s2, he, hv, hg, by rw [hd, hu]⟩
    · exact absurd hp (by simp)

/-- The user store used by the C6 witness. -/
def dbU : String → Option AuthUser :=
  fun s => if s = "u1" then some ⟨"u1", none, none, none, none⟩ else none

/-- C6 witness: the four outcomes at concrete requests. -/
theorem c6_auth_gate_witness :
    requireAuth pr0 ("x".data) "a" 50 dbU = .errG 401 "UNAUTHORIZED" "Not authenticated" ∧
    requireAuth pr0 ("wokspec_session=QQ.QQ.QQ".data) "a" 50 dbU
      = .errG 401 "UNAUTHORIZED" "Invalid session" ∧
    requireAuth pr0 (sessionKey ++ signJWT pr0 P0 "a") "a" 50 (fun _ => none)
      = .errG 401 "UNAUTHORIZED" "User not found" ∧
    requireAuth pr0 (sessionKey ++ signJWT pr0 P0 "a") "a" 50 dbU
      = .proceedG ⟨"u1", none, none, none, none⟩ ∧
    (∃ tk Q s2, extractToken (sessionKey ++ signJWT pr0 P0 "a") = some tk ∧
      verifyJWT pr0 tk "a" 50 = VerifyOut.ok Q ∧ getField Q "sub" = some (JVal.str s2) ∧
      dbU s2 = some ⟨"u1", none, none, none, none⟩) := by
  have h4 := (c6_auth_gate pr0 (sessionKey ++ signJWT pr0 P0 "a") "a" 50 dbU
      (signJWT pr0 P0 "a") [] [] [] [] P0 "u1" ⟨"u1", none, none, none, none⟩).2.2.2.1
    (by decide) (by decide) (by decide) (by decide)
  refine ⟨?_, ?_, ?_, h4, ?_⟩
  · exact (c6_auth_gate pr0 ("x".data) "a" 50 dbU [] [] [] [] [] P0 "u1"
      ⟨"u1", none, none, none, none⟩).1 (by decide)
  · exact (c6_auth_gate pr0 ("wokspec_session=QQ.QQ.QQ".data) "a" 50 dbU
      ("QQ.QQ.QQ".data) ("QQ".data) ("QQ".data) ("QQ".data) [65] P0 "u1"
      ⟨"u1", none, none, none, none⟩).2.1 (by decide) (by decide) (by decide) (by decide)
  · exact (c6_auth_gate pr0 (sessionKey ++ signJWT pr0 P0 "a") "a" 50 (fun _ => none)
      (signJWT pr0 P0 "a") [] [] [] [] P0 "u1" ⟨"u1", none, none, none, none⟩).2.2.1
      (by decide) (by decide) (by decide) rfl
  · exact (c6_auth_gate pr0 (sessionKey ++ signJWT pr0 P0 "a") "a" 50 dbU
      (signJWT pr0 P0 "a") [] [] [] [] P0 "u1" ⟨"u1", none, none, none, none⟩).2.2.2.2 h4

/-- Upstream oracle whose token exchange yields nothing (never reached in
the failing runs it is used for). -/
def orc0 : GhOracle := ⟨none, ⟨0, "", none, "", none⟩, []⟩

/-- C7 (counterexample): a callback failing on the state nonce and a
`/auth/me` request failing on the session signature produce *different*
client-facing bodies (and statuses), so the two forgery/replay classes are
distinguishable, contrary to the claim. -/
theorem c7_counterexample :
    (githubCallback pr0 "s" [] ⟨[], []⟩ 0 (some "c") (some "never") orc0 "n1" "n2").1
      = ⟨400, jErr "Invalid state", none, none⟩ ∧
    meHandler pr0 ("wokspec_session=QQ.QQ.QQ".data) "s" 0 (fun _ => none)
      = .errM ⟨401, meErrBody "Invalid session", none, none⟩ ∧
    jErr "Invalid state" ≠ meErrBody "Invalid session" := by
  decide

/-- C7 (amended): within each forgery/replay class the response is a
single constant — every failed nonce consumption (never issued, reused or
expired) yields the same 400 "Invalid state" body, and every failed token
verification (wrong signature or expired) yields the same 401 "Invalid
session" body — but the two classes carry distinct bodies. -/
theorem c7_uniform_within_class (pr : JwtParams) (secret : String) (kv : Kv) (db : Db)
    (now : Int) (code state : Option String) (orc : GhOracle) (nuid naid : String)
    (cookie tok : List Char) (secret2 : String) (now2 : Int)
    (dbf : String → Option AuthUser) :
    (truthyS code = true → truthyS state = true →
      (consumeState kv (state.getD "") now).1 = false →
      (githubCallback pr secret kv db now code state orc nuid naid).1
        = ⟨400, jErr "Invalid state", none, none⟩) ∧
    (extractToken cookie = some tok → verifyJWT pr tok secret2 now2 = VerifyOut.failv →
      meHandler pr cookie secret2 now2 dbf
        = .errM ⟨401, meErrBody "Invalid session", none, none⟩) ∧
    jErr "Invalid state" ≠ meErrBody "Invalid session" := by
  refine ⟨?_, ?_, by decide⟩
  · intro hc hs hfail
    rcases hp : consumeState kv (state.getD "") now with ⟨b, kv1⟩
    rw [hp] at hfail
    have hb : b = false := hfail
    subst hb
    unfold githubCallback
    rw [hp]
    simp [hc, hs]
  · intro hext hv
    simp only [meHandler, hext, hv]

/-- C7 witness: never-issued and reused nonces give the identical state
response; wrongly-signed and expired tokens give the identical session
response. -/
theorem c7_uniform_witness :
    (githubCallback pr0 "s" [] ⟨[], []⟩ 0 (some "c") (some "never") orc0 "n1" "n2").1
      = ⟨400, jErr "Invalid state", none, none⟩ ∧
    (githubCallback pr0 "s"
        (consumeState (generateState [] [171] 0).2 (hexOfBytes [171]) 1).2 ⟨[], []⟩ 2
        (some "c") (some (hexOfBytes [171])) orc0 "n1" "n2").1
      = ⟨400, jErr "Invalid state", none, none⟩ ∧
    meHandler pr0 ("wokspec_session=QQ.QQ.QQ".data) "s" 0 (fun _ => none)
      = .errM ⟨401, meErrBody "Invalid session", none, none⟩ ∧
    meHandler pr0 (sessionKey ++ signJWT pr0 P2 "a") "a" 100 (fun _ => none)
      = .errM ⟨401, meErrBody "Invalid session", none, none⟩ := by
  refine ⟨?_, ?_, ?_, ?_⟩
  · exact (c7_uniform_within_class pr0 "s" [] ⟨[], []⟩ 0 (some "c") (some "never") orc0
      "n1" "n2" [] [] "s" 0 (fun _ => none)).1 (by decide) (by decide) (by decide)
  · exact (c7_uniform_within_class pr0 "s"
      (consumeState (generateState [] [171] 0).2 (hexOfBytes [171]) 1).2 ⟨[], []⟩ 2
      (some "c") (some (hexOfBytes [171])) orc0 "n1" "n2" [] [] "s" 0
      (fun _ => none)).1 (by decide) (by decide) (by decide)
  · exact (c7_uniform_within_class pr0 "s" [] ⟨[], []⟩ 0 (some "c") (some "never") orc0
      "n1" "n2" ("wokspec_session=QQ.QQ.QQ".data) ("QQ.QQ.QQ".data) "s" 0
      (fun _ => none)).2.1 (by decide) (by decide)
  · exact (c7_uniform_within_class pr0 "s" [] ⟨[], []⟩ 0 (some "c") (some "never") orc0
      "n1" "n2" (sessionKey ++ signJWT pr0 P2 "a") (signJWT pr0 P2 "a") "a" 100
      (fun _ => none)).2.1 (by decide) (by decide)

/-- C8: a callback with a missing `code`/`state` or with a `state` absent
from the nonce store (never issued, consumed, or expired) returns the
corresponding failure having made no upstream call, leaving both stores
untouched; any run that does make upstream calls consumed its nonce
successfully first. -/
theorem c8_no_upstream_before_consume (pr : JwtParams) (secret : String) (kv : Kv)
    (db : Db) (now : Int) (code state : Option String) (orc : GhOracle)
    (nuid naid : String) :
    ((!truthyS code || !truthyS state) = true →
      githubCallback pr secret kv db now code state orc nuid naid
        = (⟨400, jErr "Missing code or state", none, none⟩, [], kv, db)) ∧
    (truthyS code = true → truthyS state = true →
      kvGet kv ("oauth_state:" ++ state.getD "") now = none →
      githubCallback pr secret kv db now code state orc nuid naid
        = (⟨400, jErr "Invalid state", none, none⟩, [], kv, db)) ∧
    (∀ resp calls kv2 db2,
      githubCallback pr secret kv db now code state orc nuid naid
        = (resp, calls, kv2, db2) →
      calls ≠ [] → (consumeState kv (state.getD "") now).1 = true) := by
  refine ⟨?_, ?_, ?_⟩
  · intro hmiss
    unfold githubCallback
    simp only [hmiss, if_true]
  · intro hc hs hget
    have hcons : consumeState kv (state.getD "") now = (false, kv) := by
      unfold consumeState
      rw [hget]
    unfold githubCallback
    simp [hc, hs, hcons]
  · intro resp calls kv2 db2 heq hne
    unfold githubCallback at heq
    by_cases hmiss : (!truthyS code || !truthyS state) = true
    · rw [if_pos hmiss] at heq
      simp only [Prod.mk.injEq] at heq
      exact absurd heq.2.1.symm hne
    · rw [if_neg hmiss] at heq
      rcases hp : consumeState kv (state.getD "") now with ⟨b, kv1⟩
      rw [hp] at heq
      cases b with
      | false =>
        simp only [Prod.mk.injEq] at heq
        exact absurd heq.2.1.symm hne
      | true => rfl

/-- Upstream oracle for a successful C8 witness run. -/
def orc1 : GhOracle := ⟨some "t", ⟨7, "al", some "Al", "av", some "e@x"⟩, []⟩

/-- C8 witness: missing parameter and never-issued state make no upstream
call; a successful concrete run did consume its nonce. -/
theorem c8_witness :
    githubCallback pr0 "s" [] ⟨[], []⟩ 0 none (some "x") orc0 "n1" "n2"
      = (⟨400, jErr "Missing code or state", none, none⟩, [], [], ⟨[], []⟩) ∧
    githubCallback pr0 "s" [] ⟨[], []⟩ 0 (some "c") (some "x") orc0 "n1" "n2"
      = (⟨400, jErr "Invalid state", none, none⟩, [], [], ⟨[], []⟩) ∧
    (consumeState (generateState [] [171] 0).2 (hexOfBytes [171]) 0).1 = true := by
  refine ⟨?_, ?_, ?_⟩
  · exact (c8_no_upstream_before_consume pr0 "s" [] ⟨[], []⟩ 0 none (some "x") orc0
      "n1" "n2").1 (by decide)
  · exact (c8_no_upstream_before_consume pr0 "s" [] ⟨[], []⟩ 0 (some "c") (some "x")
      orc0 "n1" "n2").2.1 (by decide) (by decide) (by decide)
  · exact (c8_no_upstream_before_consume pr0 "s" (generateState [] [171] 0).2 ⟨[], []⟩ 0
      (some "c") (some (hexOfBytes [171])) orc1 "u9" "o9").2.2 _ _ _ _ rfl (by decide)

/-- C10: `GET /auth/me` and the `requireAuth` middleware implement the
same authentication decision: on identical cookie header, secret, time and
user store, `/me` answers 401 exactly when the gate short-circuits with
401, both raise together, and on success both resolve the very same user
record. -/
theorem c10_me_matches_gate (pr : JwtParams) (cookie : List Char) (secret : String)
    (now : Int) (db : String → Option AuthUser) :
    ((∃ b, meHandler pr cookie secret now db = .errM ⟨401, b, none, none⟩) ↔
      (∃ m, requireAuth pr cookie secret now db = .errG 401 "UNAUTHORIZED" m)) ∧
    (∀ u, meHandler pr cookie secret now db = .okM u ↔
      requireAuth pr cookie secret now db = .proceedG u) ∧
    (meHandler pr cookie secret now db = .raisedM ↔
      requireAuth pr cookie secret now db = .raisedG) := by
  unfold meHandler requireAuth
  rcases he : extractToken cookie with _ | tok
  · simp [he]
  · rcases hv : verifyJWT pr tok secret now with _ | _ | P
    · simp [he, hv]
    · simp [he, hv]
    · rcases hg : getField P "sub" with _ | v
      · simp [he, hv, hg]
      · cases v with
        | num n => simp [he, hv, hg]
        | str s => rcases hd : db s with _ | u2 <;> simp [he, hv, hg, hd]
        | boolv b => simp [he, hv, hg]
        | nullv => simp [he, hv, hg]

end WokAPI
